import Mathlib

/-!
Verification development for the AdjustedCostBase-Calculator backend.

The development shallowly embeds the core of the system:
the decimal helpers (`src/backend/src/utils/decimal.ts`), the ACB Algebra
(`ACBCalculatorService.calculate` and its per-type methods from
`src/backend/src/services/transaction.service.ts`), the superficial-loss
detector (`SuperficialLossService.checkForSuperficialLoss`), the ledger
orchestrator (`TransactionService.createTransaction`,
`recalculateTransactions`, `deleteTransaction`, `updateTransaction`)
and the CSV export.  Monetary and share arithmetic is modelled over `ℚ`
(the source uses an arbitrary-precision decimal library with at least
20-digit precision, so `ℚ` is exact on all the inputs appearing below),
with explicit half-up rounding applied exactly where the source rounds.
Calendar dates are modelled as integers counting days, which is faithful
because the source manipulates dates only via day-granular comparisons
and `setDate` shifts of whole days.  The audit-trail strings produced by
the source are informational only and are not modelled.
-/

namespace ACB

/-- `toDecimalPlaces(scale, Decimal.ROUND_HALF_UP)` of
`src/backend/src/utils/decimal.ts`: rounding to `scale` decimal places
with ties away from zero (decimal.js ROUND_HALF_UP).  `ℚ` stands for the
decimal.js values (configured there with 20 significant digits; exact on
every value arising in this development). -/
def roundHalfUp (scale : ℕ) (x : ℚ) : ℚ :=
  if 0 ≤ x then (⌊x * 10 ^ scale + 1 / 2⌋ : ℤ) / 10 ^ scale
  else -((⌊-x * 10 ^ scale + 1 / 2⌋ : ℤ) / (10 ^ scale : ℚ))

/-- `roundToCurrency` of `src/backend/src/utils/decimal.ts`:
`toDecimalPlaces(2, Decimal.ROUND_HALF_UP)` — CAD money at scale 2. -/
def roundToCurrency (x : ℚ) : ℚ := roundHalfUp 2 x

/-- `roundToShares` of `src/backend/src/utils/decimal.ts`:
`toDecimalPlaces(6, Decimal.ROUND_HALF_UP)` — share quantities at
scale 6. -/
def roundToShares (x : ℚ) : ℚ := roundHalfUp 6 x

/-- `safeDivide` of `src/backend/src/utils/decimal.ts`: returns 0 when
the divisor is zero, and the quotient otherwise. -/
def safeDivide (a b : ℚ) : ℚ := if b = 0 then 0 else a / b

/-- The eleven transaction kinds of the ledger
(`TransactionType` in `entities/Transaction.ts`). -/
inductive TxType where
  | buy
  | sell
  | dividend
  | drip
  | roc
  | split
  | consolidation
  | merger
  | spinoff
  | transfer_in
  | transfer_out
deriving DecidableEq, Repr

/-- `ACBCalculationInput` from `acb-calculator.service.ts`. -/
structure CalcInput where
  transactionType : TxType
  quantity : ℚ
  pricePerShare : ℚ
  fees : ℚ
  fxRate : ℚ
  currentShares : ℚ
  currentAcb : ℚ
  ratioParam : Option ℚ := none
  rocPerShare : Option ℚ := none
  newSecurityAcbPercent : Option ℚ := none
  cashPerShare : Option ℚ := none
deriving DecidableEq, Repr

/-- `ACBCalculationResult` from `acb-calculator.service.ts`
(the informational `calculationDetails` strings are not modelled). -/
structure CalcResult where
  newShares : ℚ
  newAcb : ℚ
  newAcbPerShare : ℚ
  capitalGain : Option ℚ := none
  proceeds : Option ℚ := none
  acbUsed : Option ℚ := none
deriving DecidableEq, Repr

/-- `ACBCalculatorService.calculateBuy`. -/
def calculateBuy (input : CalcInput) : CalcResult :=
  let costCad := input.pricePerShare * input.quantity * input.fxRate
  let totalCost := costCad + input.fees
  let newAcb := input.currentAcb + totalCost
  let newShares := input.currentShares + input.quantity
  { newShares := roundToShares newShares
    newAcb := roundToCurrency newAcb
    newAcbPerShare := roundToCurrency (safeDivide newAcb newShares) }

/-- `ACBCalculatorService.calculateSell`; throws when selling more shares
than held. -/
def calculateSell (input : CalcInput) : Except String CalcResult :=
  if input.quantity > input.currentShares then
    Except.error "InsufficientShares"
  else
    let acbPerShare := safeDivide input.currentAcb input.currentShares
    let acbUsed := acbPerShare * input.quantity
    let netProceeds := input.pricePerShare * input.quantity * input.fxRate - input.fees
    let capitalGain := netProceeds - acbUsed
    let newAcb := input.currentAcb - acbUsed
    let newShares := input.currentShares - input.quantity
    Except.ok
      { newShares := roundToShares newShares
        newAcb := roundToCurrency newAcb
        newAcbPerShare := roundToCurrency (safeDivide newAcb newShares)
        capitalGain := some (roundToCurrency capitalGain)
        proceeds := some (roundToCurrency netProceeds)
        acbUsed := some (roundToCurrency acbUsed) }

/-- `ACBCalculatorService.calculateDividend`: no state change; the source
returns the input share count and ACB unrounded. -/
def calculateDividend (input : CalcInput) : CalcResult :=
  { newShares := input.currentShares
    newAcb := input.currentAcb
    newAcbPerShare := safeDivide input.currentAcb input.currentShares }

/-- `ACBCalculatorService.calculateDrip`: the dividend
`pricePerShare × currentShares × fxRate` (plus fees) is added to the ACB
and `quantity` new shares are added. -/
def calculateDrip (input : CalcInput) : CalcResult :=
  let dividendAmount := input.pricePerShare * input.currentShares * input.fxRate
  let reinvestedAmount := dividendAmount + input.fees
  let newAcb := input.currentAcb + reinvestedAmount
  let totalShares := input.currentShares + input.quantity
  { newShares := roundToShares totalShares
    newAcb := roundToCurrency newAcb
    newAcbPerShare := roundToCurrency (safeDivide newAcb totalShares) }

/-- `ACBCalculatorService.calculateRoC`: reduces the ACB by
`rocPerShare × shares × fxRate` (falling back to `pricePerShare` when
`rocPerShare` is absent); a strictly negative result clamps to zero with
the excess reported as an immediate capital gain. -/
def calculateRoC (input : CalcInput) : CalcResult :=
  let rocPS := input.rocPerShare.getD input.pricePerShare
  let totalRoc := rocPS * input.currentShares * input.fxRate
  let newAcb0 := input.currentAcb - totalRoc
  let clamped := newAcb0 < 0
  let newAcb := if clamped then 0 else newAcb0
  let capitalGain := if clamped then some (roundToCurrency (-newAcb0)) else none
  { newShares := input.currentShares
    newAcb := roundToCurrency newAcb
    newAcbPerShare := roundToCurrency (safeDivide newAcb input.currentShares)
    capitalGain := capitalGain }

/-- `ACBCalculatorService.calculateSplit`: multiplies the share count by
the ratio (defaulting to 1 when absent); the total ACB is returned
unchanged and unrounded.  No validation of the ratio is performed. -/
def calculateSplit (input : CalcInput) : CalcResult :=
  let r := input.ratioParam.getD 1
  let newShares := input.currentShares * r
  { newShares := roundToShares newShares
    newAcb := input.currentAcb
    newAcbPerShare := roundToCurrency (safeDivide input.currentAcb newShares) }

/-- `ACBCalculatorService.calculateConsolidation` delegates to the split
rule (the source only rewrites the audit strings). -/
def calculateConsolidation (input : CalcInput) : CalcResult :=
  calculateSplit input

/-- `ACBCalculatorService.calculateMerger`: share exchange at the ratio;
a positive cash-per-share component is treated as a partial disposition
with a proportional ACB reduction.  No validation of the ratio. -/
def calculateMerger (input : CalcInput) : CalcResult :=
  let r := input.ratioParam.getD 1
  let cashPS := input.cashPerShare.getD 0
  let newShares := input.currentShares * r
  if cashPS > 0 then
    let totalCash := cashPS * input.currentShares * input.fxRate
    let totalValue := totalCash + newShares * input.pricePerShare * input.fxRate
    let cashProportion := safeDivide totalCash totalValue
    let acbForCash := input.currentAcb * cashProportion
    let capitalGain := totalCash - acbForCash
    let newAcb := input.currentAcb - acbForCash
    { newShares := roundToShares newShares
      newAcb := roundToCurrency newAcb
      newAcbPerShare := roundToCurrency (safeDivide newAcb newShares)
      capitalGain := some (roundToCurrency capitalGain) }
  else
    { newShares := roundToShares newShares
      newAcb := roundToCurrency input.currentAcb
      newAcbPerShare := roundToCurrency (safeDivide input.currentAcb newShares) }

/-- `ACBCalculatorService.calculateSpinoff`: allocates
`newSecurityAcbPercent` of the ACB away; shares unchanged. -/
def calculateSpinoff (input : CalcInput) : CalcResult :=
  let alloc := input.newSecurityAcbPercent.getD 0
  let acbToNewSecurity := input.currentAcb * alloc
  let acbRemaining := input.currentAcb - acbToNewSecurity
  { newShares := input.currentShares
    newAcb := roundToCurrency acbRemaining
    newAcbPerShare := roundToCurrency (safeDivide acbRemaining input.currentShares) }

/-- `ACBCalculatorService.calculateTransferIn`: adds `quantity` shares at
`pricePerShare` carried ACB per share. -/
def calculateTransferIn (input : CalcInput) : CalcResult :=
  let transferAcb := input.pricePerShare * input.quantity
  let newAcb := input.currentAcb + transferAcb
  let newShares := input.currentShares + input.quantity
  { newShares := roundToShares newShares
    newAcb := roundToCurrency newAcb
    newAcbPerShare := roundToCurrency (safeDivide newAcb newShares) }

/-- `ACBCalculatorService.calculateTransferOut`: removes `quantity` shares
and the proportional ACB; throws when transferring more shares than held. -/
def calculateTransferOut (input : CalcInput) : Except String CalcResult :=
  if input.quantity > input.currentShares then
    Except.error "InsufficientShares"
  else
    let acbPerShare := safeDivide input.currentAcb input.currentShares
    let acbTransferred := acbPerShare * input.quantity
    let newAcb := input.currentAcb - acbTransferred
    let newShares := input.currentShares - input.quantity
    Except.ok
      { newShares := roundToShares newShares
        newAcb := roundToCurrency newAcb
        newAcbPerShare := roundToCurrency (safeDivide newAcb newShares) }

/-- `ACBCalculatorService.calculate`: dispatch on the transaction type. -/
def calculate (input : CalcInput) : Except String CalcResult :=
  match input.transactionType with
  | .buy => Except.ok (calculateBuy input)
  | .sell => calculateSell input
  | .dividend => Except.ok (calculateDividend input)
  | .drip => Except.ok (calculateDrip input)
  | .roc => Except.ok (calculateRoC input)
  | .split => Except.ok (calculateSplit input)
  | .consolidation => Except.ok (calculateConsolidation input)
  | .merger => Except.ok (calculateMerger input)
  | .spinoff => Except.ok (calculateSpinoff input)
  | .transfer_in => Except.ok (calculateTransferIn input)
  | .transfer_out => calculateTransferOut input

/-- Whether a calculation succeeded. -/
def calcOk (r : Except String CalcResult) : Bool :=
  match r with
  | .ok _ => true
  | .error _ => false

/-- The result of a successful calculation, if any. -/
def calcRes (r : Except String CalcResult) : Option CalcResult :=
  match r with
  | .ok v => some v
  | .error _ => none

/-- A persisted ledger row (`Transaction` entity, with the fields the core
reads and writes; `createTransaction` persists `ratio` but none of the
other corporate-action parameters, so only `ratio` appears here). -/
structure Txn where
  id : ℕ
  createdAt : ℕ
  date : ℤ
  typ : TxType
  securityId : ℕ
  accountId : ℕ
  quantity : ℚ
  price : ℚ
  fees : ℚ
  fxRate : ℚ
  ratioParam : Option ℚ
  sharesBefore : ℚ
  sharesAfter : ℚ
  acbBefore : ℚ
  acbAfter : ℚ
  capitalGain : Option ℚ
  flags : List String
deriving DecidableEq, Repr

/-- The latest row by `(date DESC, createdAt DESC)` — the ordering every
`findOne` of the service uses. -/
def latestBy (l : List Txn) : Option Txn :=
  l.foldl
    (fun acc t =>
      match acc with
      | none => some t
      | some m =>
          if t.date > m.date ∨ (t.date = m.date ∧ t.createdAt > m.createdAt) then some t
          else some m)
    none

/-- Insert into a list sorted ascending by `(date, createdAt)`. -/
def insertAsc (t : Txn) : List Txn → List Txn
  | [] => [t]
  | u :: rest =>
      if t.date < u.date ∨ (t.date = u.date ∧ t.createdAt ≤ u.createdAt) then t :: u :: rest
      else u :: insertAsc t rest

/-- Sort ascending by `(date, createdAt)` — the replay order
(`date ASC, createdAt ASC`). -/
def sortAsc : List Txn → List Txn
  | [] => []
  | t :: rest => insertAsc t (sortAsc rest)

/-- The transactions stored for one `(security, account)` series. -/
def seriesOf (txns : List Txn) (sec acc : ℕ) : List Txn :=
  txns.filter (fun t => t.securityId == sec && t.accountId == acc)

/-- `TransactionService.getPositionStateAtDate`: the `(shares, acb)` state
before any transaction dated `d`.  The latest row with `date ≤ d` is
consulted; if it is dated strictly before `d` its after-state is used,
if it is dated exactly `d` the latest row dated at most the previous day
is used instead, and `(0, 0)` otherwise. -/
def getPositionStateAtDate (txns : List Txn) (sec acc : ℕ) (d : ℤ) : ℚ × ℚ :=
  let series := seriesOf txns sec acc
  match latestBy (series.filter (fun t => decide (t.date ≤ d))) with
  | none => (0, 0)
  | some p =>
      if p.date < d then (p.sharesAfter, p.acbAfter)
      else
        match latestBy (series.filter (fun t => decide (t.date ≤ d - 1))) with
        | some e => (e.sharesAfter, e.acbAfter)
        | none => (0, 0)

/-- `SuperficialLossResult` (the interpolated numeric substrings of the
informational texts are elided). -/
structure SLResult where
  isSuperficial : Bool
  lossAmount : ℚ
  relatedTransactionIds : List ℕ
  explainText : String
  adjustmentRequired : String
deriving DecidableEq, Repr

/-- `SuperficialLossService.checkForSuperficialLoss`.  `isReg` maps an
account id to its `Account.isRegistered()` value (`type ≠ non-registered`).
The acquisition scan covers buys and DRIPs of the security across all
accounts dated within 30 days of the sale, excluding rows with the sell's
id or the sell's exact date; the still-held test asks the latest row of
the security dated at most 30 days after the sale for a positive
`sharesAfter`. -/
def checkForSuperficialLoss (isReg : ℕ → Bool) (txns : List Txn)
    (sell : Txn) (lossAmount : ℚ) : SLResult :=
  if lossAmount ≥ 0 then
    { isSuperficial := false, lossAmount := 0, relatedTransactionIds := []
      explainText := "No loss on this transaction.", adjustmentRequired := "" }
  else if isReg sell.accountId then
    { isSuperficial := false, lossAmount := |lossAmount|, relatedTransactionIds := []
      explainText := "Loss occurred in a registered account - not reportable for tax purposes."
      adjustmentRequired := "" }
  else
    let windowStart := sell.date - 30
    let windowEnd := sell.date + 30
    let relatedBuys := txns.filter (fun t =>
      t.securityId == sell.securityId && decide (t.typ = TxType.buy) &&
      decide (windowStart ≤ t.date) && decide (t.date ≤ windowEnd))
    let relatedDrips := txns.filter (fun t =>
      t.securityId == sell.securityId && decide (t.typ = TxType.drip) &&
      decide (windowStart ≤ t.date) && decide (t.date ≤ windowEnd))
    let filtered := (relatedBuys ++ relatedDrips).filter (fun t =>
      t.id != sell.id && decide (t.date ≠ sell.date))
    if filtered.isEmpty then
      { isSuperficial := false, lossAmount := |lossAmount|, relatedTransactionIds := []
        explainText := "No repurchase of the security within the 30-day window."
        adjustmentRequired := "" }
    else
      let thirtyDaysAfter := sell.date + 30
      let lastTransaction := latestBy (txns.filter (fun t =>
        t.securityId == sell.securityId && decide (t.date ≤ thirtyDaysAfter)))
      let stillOwnsShares :=
        match lastTransaction with
        | none => false
        | some t => decide (t.sharesAfter > 0)
      if !stillOwnsShares then
        { isSuperficial := false, lossAmount := |lossAmount|
          relatedTransactionIds := filtered.map (fun t => t.id)
          explainText := "Repurchase detected within 30 days, but no shares held 30 days after sale."
          adjustmentRequired := "" }
      else
        { isSuperficial := true, lossAmount := |lossAmount|
          relatedTransactionIds := filtered.map (fun t => t.id)
          explainText := "SUPERFICIAL LOSS DETECTED: repurchased within 30 days of the sale and still held 30 days after; per CRA rules the loss is denied."
          adjustmentRequired := "Add the denied loss to the ACB of the repurchased shares." }

/-- The persistence store: its rows and a counter supplying fresh row ids
(and creation timestamps — both increase with every `create`). -/
structure Ledger where
  txns : List Txn
  nextId : ℕ
deriving DecidableEq, Repr

/-- Look a row up by id. -/
def getTxn (l : Ledger) (i : ℕ) : Option Txn :=
  (l.txns.filter (fun t => t.id == i)).head?

/-- `CreateTransactionInput` (the FX rate is the already-resolved rate:
the FX-oracle lookup is out of scope of the claims, and all claims supply
explicit rates). -/
structure CreateInput where
  date : ℤ
  typ : TxType
  securityId : ℕ
  accountId : ℕ
  quantity : ℚ
  price : ℚ
  fees : ℚ := 0
  fxRate : ℚ := 1
  ratioParam : Option ℚ := none
  rocPerShare : Option ℚ := none
  newSecurityAcbPercent : Option ℚ := none
  cashPerShare : Option ℚ := none
deriving Repr

/-- The calculation input the replay loop of
`TransactionService.recalculateTransactions` builds for one stored row:
only the row's type, quantity, price, fees, fxRate and (truthy) ratio —
the source omits `rocPerShare`, `newSecurityAcbPercent` and
`cashPerShare` here, and the row does not store them. -/
def recalcCalcInput (cur : Txn) (shares acb : ℚ) : CalcInput :=
  { transactionType := cur.typ, quantity := cur.quantity
    pricePerShare := cur.price, fees := cur.fees, fxRate := cur.fxRate
    currentShares := shares, currentAcb := acb
    ratioParam :=
      match cur.ratioParam with
      | some x => if x = 0 then none else some x
      | none => none }

/-- The row update the replay loop writes back after a successful
calculation: fresh snapshot fields, plus the superficial-loss flag update
on a negative-gain sell (`view` is the repository contents the detector
queries at that point). -/
def applyRecalc (isReg : ℕ → Bool) (view : List Txn) (cur : Txn)
    (shares acb : ℚ) (res : CalcResult) : Txn :=
  let updated : Txn :=
    { cur with
        sharesBefore := shares, acbBefore := acb
        sharesAfter := res.newShares, acbAfter := res.newAcb
        capitalGain := res.capitalGain }
  if cur.typ = TxType.sell then
    match res.capitalGain with
    | some g =>
        if g < 0 then
          if (checkForSuperficialLoss isReg view updated g).isSuperficial then
            { updated with flags := ["superficial_loss"] }
          else
            { updated with flags := updated.flags.filter (fun f => f != "superficial_loss") }
        else updated
    | none => updated
  else updated

/-- The replay loop of `TransactionService.recalculateTransactions`:
rebuilds each row's snapshot from the running state.  Rows already
processed are saved; an error aborts the loop leaving the remaining rows
untouched. -/
def recalcIn (isReg : ℕ → Bool) (others : List Txn) :
    List Txn → List Txn → ℚ → ℚ → (List Txn × ℚ × ℚ × Option String)
  | done, [], shares, acb => (done, shares, acb, none)
  | done, cur :: rest, shares, acb =>
    match calculate (recalcCalcInput cur shares acb) with
    | .error e => (done ++ cur :: rest, shares, acb, some e)
    | .ok res =>
      let updated2 := applyRecalc isReg (others ++ done ++ cur :: rest) cur shares acb res
      recalcIn isReg others (done ++ [updated2]) rest res.newShares res.newAcb

/-- The rows of the ledger outside the replayed range (different series,
or dated before the replay start). -/
def recalcOthers (l : Ledger) (sec acc : ℕ) (fromDate : ℤ) : List Txn :=
  l.txns.filter (fun t =>
    !(t.securityId == sec && t.accountId == acc && decide (fromDate ≤ t.date)))

/-- The rows the replay recomputes, in `(date ASC, createdAt ASC)` order. -/
def recalcTodo (l : Ledger) (sec acc : ℕ) (fromDate : ℤ) : List Txn :=
  sortAsc ((seriesOf l.txns sec acc).filter (fun t => decide (fromDate ≤ t.date)))

/-- The replay seed: the after-state of the latest row of the series
strictly before `fromDate`, or `(0, 0)`. -/
def recalcSeed (l : Ledger) (sec acc : ℕ) (fromDate : ℤ) : ℚ × ℚ :=
  match latestBy ((seriesOf l.txns sec acc).filter
      (fun t => decide (t.date < fromDate))) with
  | some p => (p.sharesAfter, p.acbAfter)
  | none => (0, 0)

/-- `TransactionService.recalculateTransactions`: seed the running state
from the latest row strictly before `fromDate`, then replay every row of
the series dated `≥ fromDate` in `(date ASC, createdAt ASC)` order. -/
def recalculateTransactions (isReg : ℕ → Bool) (l : Ledger)
    (sec acc : ℕ) (fromDate : ℤ) : Option String × Ledger :=
  let out := recalcIn isReg (recalcOthers l sec acc fromDate) []
    (recalcTodo l sec acc fromDate)
    (recalcSeed l sec acc fromDate).1 (recalcSeed l sec acc fromDate).2
  (out.2.2.2, ⟨recalcOthers l sec acc fromDate ++ out.1, l.nextId⟩)

/-- The calculation input `TransactionService.createTransaction` builds:
all corporate-action parameters of the request are passed through, and
the current state is the position state at the trade date. -/
def createCalcInput (inp : CreateInput) (ps : ℚ × ℚ) : CalcInput :=
  { transactionType := inp.typ, quantity := inp.quantity
    pricePerShare := inp.price, fees := inp.fees, fxRate := inp.fxRate
    currentShares := ps.1, currentAcb := ps.2
    ratioParam := inp.ratioParam, rocPerShare := inp.rocPerShare
    newSecurityAcbPercent := inp.newSecurityAcbPercent
    cashPerShare := inp.cashPerShare }

/-- The row `createTransaction` persists: snapshots from the calculation,
`ratio` stored but no other corporate-action parameter, and the
superficial-loss flag set when the detector (consulted against the ledger
before the save) denies a negative-gain sell. -/
def mkCreatedTxn (isReg : ℕ → Bool) (inp : CreateInput) (l : Ledger)
    (ps : ℚ × ℚ) (res : CalcResult) : Txn :=
  let txn0 : Txn :=
    { id := l.nextId, createdAt := l.nextId, date := inp.date, typ := inp.typ
      securityId := inp.securityId, accountId := inp.accountId
      quantity := inp.quantity, price := inp.price, fees := inp.fees
      fxRate := inp.fxRate, ratioParam := inp.ratioParam
      sharesBefore := ps.1, acbBefore := ps.2
      sharesAfter := res.newShares, acbAfter := res.newAcb
      capitalGain := res.capitalGain, flags := [] }
  if inp.typ = TxType.sell then
    match res.capitalGain with
    | some g =>
        if g < 0 then
          if (checkForSuperficialLoss isReg l.txns txn0 g).isSuperficial then
            { txn0 with flags := ["superficial_loss"] }
          else txn0
        else txn0
    | none => txn0
  else txn0

/-- `TransactionService.createTransaction`: compute the position state at
the trade date, apply the Algebra, run the superficial-loss check on a
negative-gain sell, persist the row, and replay the suffix only when a
row with a strictly later date exists. -/
def createTransaction (isReg : ℕ → Bool) (inp : CreateInput) (l : Ledger) :
    Option String × Ledger :=
  let ps := getPositionStateAtDate l.txns inp.securityId inp.accountId inp.date
  match calculate (createCalcInput inp ps) with
  | .error e => (some e, l)
  | .ok res =>
    let l1 : Ledger := ⟨l.txns ++ [mkCreatedTxn isReg inp l ps res], l.nextId + 1⟩
    let hasLater := l1.txns.any (fun t =>
      t.securityId == inp.securityId && t.accountId == inp.accountId &&
      decide (t.date > inp.date))
    if hasLater then
      recalculateTransactions isReg l1 inp.securityId inp.accountId inp.date
    else (none, l1)

/-- `TransactionService.deleteTransaction`: remove the row and replay the
series from its trade date. -/
def deleteTransaction (isReg : ℕ → Bool) (l : Ledger) (i : ℕ) :
    Option String × Ledger :=
  match getTxn l i with
  | none => (some "Transaction not found", l)
  | some t =>
    let l1 : Ledger := ⟨l.txns.filter (fun u => u.id != i), l.nextId⟩
    recalculateTransactions isReg l1 t.securityId t.accountId t.date

/-- The patch accepted by `updateTransaction` (the fields the source
merges: date, type, securityId, accountId, quantity, price, fees, ratio,
fxRate; `rocPerShare`, `newSecurityAcbPercent` and `cashPerShare` are not
part of the merge). -/
structure UpdatePatch where
  date : Option ℤ := none
  typ : Option TxType := none
  securityId : Option ℕ := none
  accountId : Option ℕ := none
  quantity : Option ℚ := none
  price : Option ℚ := none
  fees : Option ℚ := none
  ratioParam : Option ℚ := none
  fxRate : Option ℚ := none
deriving Repr

/-- `TransactionService.updateTransaction`: read the existing row, merge
the patch over its fields, delete it (which replays the suffix) and
re-create from the merged input.  The two steps are sequential calls with
no surrounding store transaction. -/
def updateTransaction (isReg : ℕ → Bool) (l : Ledger) (i : ℕ)
    (patch : UpdatePatch) : Option String × Ledger :=
  match getTxn l i with
  | none => (some "Transaction not found", l)
  | some ex =>
    let fullInput : CreateInput :=
      { date := patch.date.getD ex.date
        typ := patch.typ.getD ex.typ
        securityId := patch.securityId.getD ex.securityId
        accountId := patch.accountId.getD ex.accountId
        quantity := patch.quantity.getD ex.quantity
        price := patch.price.getD ex.price
        fees := patch.fees.getD ex.fees
        ratioParam :=
          match patch.ratioParam with
          | some r => some r
          | none => ex.ratioParam
        fxRate := patch.fxRate.getD ex.fxRate }
    let del := deleteTransaction isReg l i
    match del.1 with
    | some e => (some e, del.2)
    | none => createTransaction isReg fullInput del.2

/-- A transaction as rendered for export: `exportTransactionsCSV` stringifies
each field before assembling the CSV, so the row model carries the already
rendered texts (number formatting is presentation-layer and out of scope). -/
structure CsvRow where
  dateText : String
  settlementText : String
  typeText : String
  symbolText : String
  accountText : String
  quantityText : String
  priceText : String
  currencyText : String
  feesText : String
  fxRateText : String
  acbBeforeText : String
  acbAfterText : String
  sharesBeforeText : String
  sharesAfterText : String
  capitalGainText : Option String
  flags : List String
  notesText : Option String
deriving DecidableEq, Repr

/-- The header names of `exportTransactionsCSV`, in source order. -/
def csvHeaders : List String :=
  ["Date", "Settlement Date", "Type", "Security", "Account", "Quantity",
   "Price", "Currency", "Fees", "FX Rate", "ACB Before", "ACB After",
   "Shares Before", "Shares After", "Capital Gain/Loss", "Flags", "Notes"]

/-- The cell values of one exported row, in source order: a missing capital
gain renders as the empty string, flags join with a semicolon and space,
missing notes render empty. -/
def csvCells (t : CsvRow) : List String :=
  [t.dateText, t.settlementText, t.typeText, t.symbolText, t.accountText,
   t.quantityText, t.priceText, t.currencyText, t.feesText, t.fxRateText,
   t.acbBeforeText, t.acbAfterText, t.sharesBeforeText, t.sharesAfterText,
   t.capitalGainText.getD "", String.intercalate "; " t.flags,
   t.notesText.getD ""]

/-- `TransactionService.exportTransactionsCSV`: the comma-joined (unquoted)
header line, then one line per row whose cells are each wrapped in double
quotes, all joined with newlines. -/
def exportTransactionsCSV (rows : List CsvRow) : String :=
  String.intercalate "\n"
    (String.intercalate "," csvHeaders ::
      rows.map (fun r =>
        String.intercalate "," ((csvCells r).map (fun c => "\"" ++ c ++ "\""))))

/-! Spec-side definitions: predicates written from the spec's wording, to
be compared against the behaviour of the embedded source functions. -/

/-- Invariant I1 (chain continuity), as the spec words it: in
`(date ASC, createdAt ASC)` order, each row's before-state equals the
previous row's after-state. -/
def chainContinuousB : List Txn → Bool
  | [] => true
  | [_] => true
  | a :: b :: rest =>
      (b.sharesBefore == a.sharesAfter && b.acbBefore == a.acbAfter) &&
      chainContinuousB (b :: rest)

/-- The superficial-loss denial test exactly as the claim words it:
the account is not registered, some acquiring event (buy or DRIP) of the
security in any account is dated within the inclusive ±30-day window and
is not the sell transaction itself, and the latest row of the security
dated at most 30 days after the sale has positive `sharesAfter`. -/
def claimDenialTest (isReg : ℕ → Bool) (txns : List Txn) (sell : Txn) : Bool :=
  !isReg sell.accountId &&
  (txns.any fun t =>
    t.securityId == sell.securityId &&
    (decide (t.typ = TxType.buy) || decide (t.typ = TxType.drip)) &&
    decide (sell.date - 30 ≤ t.date) && decide (t.date ≤ sell.date + 30) &&
    t.id != sell.id) &&
  (match latestBy (txns.filter (fun u =>
      u.securityId == sell.securityId && decide (u.date ≤ sell.date + 30))) with
   | some t => decide (t.sharesAfter > 0)
   | none => false)

/-- The CSV header line exactly as the claim words the export: every field
quoted, `FX Rate` directly after `Currency` (no `Fees` column). -/
def claimCsvHeaderLine : String :=
  "\"Date\",\"Settlement Date\",\"Type\",\"Security\",\"Account\",\"Quantity\",\"Price\",\"Currency\",\"FX Rate\",\"ACB Before\",\"ACB After\",\"Shares Before\",\"Shares After\",\"Capital Gain/Loss\",\"Flags\",\"Notes\""

/-- One row line as the amended CSV claim words it: the seventeen fields
in export order, each wrapped in double quotes, comma-joined. -/
def specCsvLine (r : CsvRow) : String :=
  String.intercalate ","
    (List.map (fun c => "\"" ++ c ++ "\"")
      [r.dateText, r.settlementText, r.typeText, r.symbolText, r.accountText,
       r.quantityText, r.priceText, r.currencyText, r.feesText, r.fxRateText,
       r.acbBeforeText, r.acbAfterText, r.sharesBeforeText, r.sharesAfterText,
       r.capitalGainText.getD "", String.intercalate "; " r.flags,
       r.notesText.getD ""])

/-- The whole export as the amended CSV claim words it: one unquoted header
line naming the seventeen columns (with `Fees` between `Currency` and
`FX Rate`), then one quoted line per row, newline-joined. -/
def specCsvExport (rows : List CsvRow) : String :=
  String.intercalate "\n"
    ("Date,Settlement Date,Type,Security,Account,Quantity,Price,Currency,Fees,FX Rate,ACB Before,ACB After,Shares Before,Shares After,Capital Gain/Loss,Flags,Notes"
      :: rows.map specCsvLine)

/-- Invariant I4 (sell feasibility) for one row, as the spec words it. -/
def sellFeasible (t : Txn) : Prop :=
  (t.typ = TxType.sell ∨ t.typ = TxType.transfer_out) → t.quantity ≤ t.sharesBefore

/-! Concrete scenario inputs: the literal end-to-end scenarios named by the
claims, expressed as orchestrator calls.  `noReg` is the account map in
which every account is non-registered. -/

/-- An account universe in which every account is non-registered. -/
def noReg : ℕ → Bool := fun _ => false

/-- Same-day scenario, first buy: 100 shares at dollar 50 on day 15. -/
def c1Buy1 : CreateInput :=
  { date := 15, typ := TxType.buy, securityId := 0, accountId := 0
    quantity := 100, price := 50 }

/-- Same-day scenario, second buy: 100 shares at dollar 51 on day 15. -/
def c1Buy2 : CreateInput :=
  { date := 15, typ := TxType.buy, securityId := 0, accountId := 0
    quantity := 100, price := 51 }

/-- The ledger produced by creating the two same-day buys in order. -/
def c1Ledger : Ledger :=
  (createTransaction noReg c1Buy2 (createTransaction noReg c1Buy1 ⟨[], 0⟩).2).2

/-- Superficial-loss scenario: buy 100 at 50 (day 0), sell 100 at 40
(day 40, a 1000 loss), buy 100 at 38 (day 50, inside the 30-day window),
all in the same non-registered account. -/
def c2Ledger : Ledger :=
  (createTransaction noReg
    { date := 50, typ := TxType.buy, securityId := 0, accountId := 0
      quantity := 100, price := 38 }
    (createTransaction noReg
      { date := 40, typ := TxType.sell, securityId := 0, accountId := 0
        quantity := 100, price := 40 }
      (createTransaction noReg
        { date := 0, typ := TxType.buy, securityId := 0, accountId := 0
          quantity := 100, price := 50 }
        ⟨[], 0⟩).2).2).2

/-- Replay scenario: buy 100 at 50 (day 0), then a return of capital of 2
per share (day 10) entered with `price = 0` and `rocPerShare = 2`. -/
def c3Ledger : Ledger :=
  (createTransaction noReg
    { date := 10, typ := TxType.roc, securityId := 0, accountId := 0
      quantity := 100, price := 0, rocPerShare := some 2 }
    (createTransaction noReg
      { date := 0, typ := TxType.buy, securityId := 0, accountId := 0
        quantity := 100, price := 50 }
      ⟨[], 0⟩).2).2

/-- The replay scenario's ledger after re-running replay over the whole
(unchanged) series. -/
def c3Replayed : Option String × Ledger :=
  recalculateTransactions noReg c3Ledger 0 0 0

/-- Detector scenario: a buy of the security dated the very day of the
loss-producing sell (a different transaction than the sell). -/
def c6Buy : Txn :=
  { id := 0, createdAt := 0, date := 1000, typ := TxType.buy
    securityId := 7, accountId := 0, quantity := 100, price := 38
    fees := 0, fxRate := 1, ratioParam := none
    sharesBefore := 0, sharesAfter := 100, acbBefore := 0, acbAfter := 3800
    capitalGain := none, flags := [] }

/-- Detector scenario: the loss-producing sell, dated day 1000. -/
def c6Sell : Txn :=
  { id := 1, createdAt := 1, date := 1000, typ := TxType.sell
    securityId := 7, accountId := 0, quantity := 100, price := 40
    fees := 0, fxRate := 1, ratioParam := none
    sharesBefore := 100, sharesAfter := 0, acbBefore := 5000, acbAfter := 0
    capitalGain := some (-1000), flags := [] }

/-- A split event with ratio −1 on a position of 100 shares. -/
def c8SplitNeg : CalcInput :=
  { transactionType := TxType.split, quantity := 0, pricePerShare := 0
    fees := 0, fxRate := 1, currentShares := 100, currentAcb := 5000
    ratioParam := some (-1) }

/-- Update scenario: a ledger holding one buy of 100 shares at 50. -/
def c9Ledger : Ledger :=
  (createTransaction noReg
    { date := 0, typ := TxType.buy, securityId := 0, accountId := 0
      quantity := 100, price := 50 }
    ⟨[], 0⟩).2

/-- Update scenario: patch the buy into a sell of 150 shares, which must
fail validation on the merged input. -/
def c9Patch : UpdatePatch :=
  { typ := some TxType.sell, quantity := some 150 }

/-- The outcome of the failing update. -/
def c9Updated : Option String × Ledger :=
  updateTransaction noReg c9Ledger 0 c9Patch

/-- An oversell event: 150 shares sold against a position of 100. -/
def c7SellInput : CalcInput :=
  { transactionType := TxType.sell, quantity := 150, pricePerShare := 50
    fees := 0, fxRate := 1, currentShares := 100, currentAcb := 5000 }

/-- A plain buy request, used to exercise the create path. -/
def c7CreateInput : CreateInput :=
  { date := 0, typ := TxType.buy, securityId := 0, accountId := 0
    quantity := 100, price := 50 }

/-! Theorems.  The core rational operations are `@[irreducible]` in
Batteries; they are made semireducible here (locally, inside this
namespace) so that `decide` can evaluate the embedded functions on the
concrete scenario inputs. -/

attribute [local semireducible] Rat.add Rat.sub Rat.mul Rat.inv

theorem safeDivide_eq_div (a b : ℚ) : safeDivide a b = a / b := by
  unfold safeDivide
  by_cases h : b = 0
  · simp [h]
  · simp [h]

theorem roundToCurrency_zero : roundToCurrency 0 = 0 := by decide

theorem mem_insertAsc {u t : Txn} {l : List Txn} :
    u ∈ insertAsc t l ↔ u = t ∨ u ∈ l := by
  induction l with
  | nil => simp [insertAsc]
  | cons a rest ih =>
      unfold insertAsc
      split
      · simp [List.mem_cons]
      · simp only [List.mem_cons, ih]
        tauto

theorem mem_sortAsc {u : Txn} {l : List Txn} : u ∈ sortAsc l ↔ u ∈ l := by
  induction l with
  | nil => simp [sortAsc]
  | cons a rest ih => simp [sortAsc, mem_insertAsc, ih]

theorem applyRecalc_eq (isReg : ℕ → Bool) (view : List Txn) (cur : Txn)
    (shares acb : ℚ) (res : CalcResult) :
    ∃ fl, applyRecalc isReg view cur shares acb res =
      { cur with sharesBefore := shares, acbBefore := acb
                 sharesAfter := res.newShares, acbAfter := res.newAcb
                 capitalGain := res.capitalGain, flags := fl } := by
  unfold applyRecalc
  dsimp only
  repeat' split
  all_goals exact ⟨_, rfl⟩

theorem applyRecalc_fields (isReg : ℕ → Bool) (view : List Txn) (cur : Txn)
    (shares acb : ℚ) (res : CalcResult) :
    (applyRecalc isReg view cur shares acb res).id = cur.id ∧
    (applyRecalc isReg view cur shares acb res).typ = cur.typ ∧
    (applyRecalc isReg view cur shares acb res).quantity = cur.quantity ∧
    (applyRecalc isReg view cur shares acb res).sharesBefore = shares := by
  obtain ⟨fl, hfl⟩ := applyRecalc_eq isReg view cur shares acb res
  rw [hfl]
  simp

theorem mkCreatedTxn_eq (isReg : ℕ → Bool) (inp : CreateInput) (l : Ledger)
    (ps : ℚ × ℚ) (res : CalcResult) :
    ∃ fl, mkCreatedTxn isReg inp l ps res =
      { id := l.nextId, createdAt := l.nextId, date := inp.date, typ := inp.typ
        securityId := inp.securityId, accountId := inp.accountId
        quantity := inp.quantity, price := inp.price, fees := inp.fees
        fxRate := inp.fxRate, ratioParam := inp.ratioParam
        sharesBefore := ps.1, acbBefore := ps.2
        sharesAfter := res.newShares, acbAfter := res.newAcb
        capitalGain := res.capitalGain, flags := fl } := by
  unfold mkCreatedTxn
  dsimp only
  repeat' split
  all_goals exact ⟨_, rfl⟩

theorem mkCreatedTxn_fields (isReg : ℕ → Bool) (inp : CreateInput) (l : Ledger)
    (ps : ℚ × ℚ) (res : CalcResult) :
    (mkCreatedTxn isReg inp l ps res).id = l.nextId ∧
    (mkCreatedTxn isReg inp l ps res).typ = inp.typ ∧
    (mkCreatedTxn isReg inp l ps res).quantity = inp.quantity ∧
    (mkCreatedTxn isReg inp l ps res).sharesBefore = ps.1 := by
  obtain ⟨fl, hfl⟩ := mkCreatedTxn_eq isReg inp l ps res
  rw [hfl]
  simp

theorem calculate_ok_le {inp : CalcInput}
    (h : inp.transactionType = TxType.sell ∨ inp.transactionType = TxType.transfer_out)
    {res : CalcResult} (hok : calculate inp = Except.ok res) :
    inp.quantity ≤ inp.currentShares := by
  by_contra hq
  push_neg at hq
  rcases h with h | h <;>
    simp [calculate, h, calculateSell, calculateTransferOut,
      show inp.quantity > inp.currentShares from hq] at hok

theorem recalcIn_preserves (isReg : ℕ → Bool) (others : List Txn)
    (P : Txn → Prop)
    (hupd : ∀ view cur shares acb res,
      calculate (recalcCalcInput cur shares acb) = Except.ok res → P cur →
      P (applyRecalc isReg view cur shares acb res)) :
    ∀ (todo done : List Txn) (s a : ℚ),
      (∀ t ∈ done, P t) → (∀ t ∈ todo, P t) →
      ∀ t ∈ (recalcIn isReg others done todo s a).1, P t := by
  intro todo
  induction todo with
  | nil =>
      intro done s a hdone _ t ht
      exact hdone t (by simpa [recalcIn] using ht)
  | cons cur rest ih =>
      intro done s a hdone htodo t ht
      simp only [recalcIn] at ht
      cases hcalc : calculate (recalcCalcInput cur s a) with
      | error e =>
          rw [hcalc] at ht
          simp only [List.mem_append, List.mem_cons] at ht
          rcases ht with h1 | h2 | h3
          · exact hdone t h1
          · exact htodo t (h2 ▸ List.mem_cons_self cur rest)
          · exact htodo t (List.mem_cons_of_mem cur h3)
      | ok res =>
          rw [hcalc] at ht
          refine ih (done ++ [applyRecalc isReg (others ++ done ++ cur :: rest) cur s a res])
            res.newShares res.newAcb ?_ (fun u hu => htodo u (List.mem_cons_of_mem cur hu)) t ht
          intro u hu
          rcases List.mem_append.mp hu with h1 | h2
          · exact hdone u h1
          · rw [List.mem_singleton.mp h2]
            exact hupd _ _ _ _ _ hcalc (htodo cur (List.mem_cons_self cur rest))

theorem recalculateTransactions_preserves (isReg : ℕ → Bool) (l : Ledger)
    (sec acc : ℕ) (d : ℤ) (P : Txn → Prop)
    (hupd : ∀ view cur shares acb res,
      calculate (recalcCalcInput cur shares acb) = Except.ok res → P cur →
      P (applyRecalc isReg view cur shares acb res))
    (h : ∀ t ∈ l.txns, P t) :
    ∀ t ∈ ((recalculateTransactions isReg l sec acc d).2).txns, P t := by
  intro t ht
  have hset : ((recalculateTransactions isReg l sec acc d).2).txns =
      recalcOthers l sec acc d ++
        (recalcIn isReg (recalcOthers l sec acc d) [] (recalcTodo l sec acc d)
          (recalcSeed l sec acc d).1 (recalcSeed l sec acc d).2).1 := rfl
  rw [hset] at ht
  rcases List.mem_append.mp ht with h1 | h2
  · exact h t (List.mem_of_mem_filter h1)
  · refine recalcIn_preserves isReg _ P hupd _ [] _ _ (by simp) ?_ t h2
    intro u hu
    have hu1 : u ∈ (seriesOf l.txns sec acc).filter
        (fun t => decide (d ≤ t.date)) := by
      have := mem_sortAsc.mp hu
      simpa [recalcTodo] using this
    have hu2 : u ∈ seriesOf l.txns sec acc := List.mem_of_mem_filter hu1
    unfold seriesOf at hu2
    exact h u (List.mem_of_mem_filter hu2)

theorem createTransaction_preserves (isReg : ℕ → Bool) (inp : CreateInput)
    (l : Ledger) (P : Txn → Prop)
    (hupd : ∀ view cur shares acb res,
      calculate (recalcCalcInput cur shares acb) = Except.ok res → P cur →
      P (applyRecalc isReg view cur shares acb res))
    (hnew : ∀ res,
      calculate (createCalcInput inp
        (getPositionStateAtDate l.txns inp.securityId inp.accountId inp.date)) =
        Except.ok res →
      P (mkCreatedTxn isReg inp l
        (getPositionStateAtDate l.txns inp.securityId inp.accountId inp.date) res))
    (h : ∀ t ∈ l.txns, P t) :
    ∀ t ∈ ((createTransaction isReg inp l).2).txns, P t := by
  intro t ht
  unfold createTransaction at ht
  dsimp only at ht
  cases hcalc : calculate (createCalcInput inp
      (getPositionStateAtDate l.txns inp.securityId inp.accountId inp.date)) with
  | error e =>
      rw [hcalc] at ht
      exact h t ht
  | ok res =>
      rw [hcalc] at ht
      simp only at ht
      have hl1 : ∀ u ∈ l.txns ++ [mkCreatedTxn isReg inp l
          (getPositionStateAtDate l.txns inp.securityId inp.accountId inp.date) res], P u := by
        intro u hu
        rcases List.mem_append.mp hu with h1 | h2
        · exact h u h1
        · rw [List.mem_singleton.mp h2]
          exact hnew res hcalc
      split at ht
      · exact recalculateTransactions_preserves isReg _ _ _ _ P hupd hl1 t ht
      · exact hl1 t ht

theorem getTxn_none_notMem {l : Ledger} {i : ℕ} (h : getTxn l i = none) :
    ∀ t ∈ l.txns, t.id ≠ i := by
  intro t ht he
  unfold getTxn at h
  rw [List.head?_eq_none_iff] at h
  have hmem : t ∈ l.txns.filter (fun t => t.id == i) :=
    List.mem_filter.mpr ⟨ht, by simp [he]⟩
  rw [h] at hmem
  exact absurd hmem (List.not_mem_nil t)

theorem getTxn_some_mem {l : Ledger} {i : ℕ} {ex : Txn}
    (h : getTxn l i = some ex) : ex ∈ l.txns ∧ ex.id = i := by
  unfold getTxn at h
  have hmem : ex ∈ l.txns.filter (fun t => t.id == i) := by
    cases hfl : l.txns.filter (fun t => t.id == i) with
    | nil => rw [hfl] at h; simp at h
    | cons a as =>
        rw [hfl] at h
        simp only [List.head?, Option.some_inj] at h
        rw [← h]
        exact List.mem_cons_self a as
  have := List.mem_filter.mp hmem
  exact ⟨this.1, by simpa using this.2⟩

set_option maxRecDepth 8000 in
/-- Claim C1: chain continuity (I1) is stated to hold after every
orchestrator call, including same-day pairs created by successive create
calls, with the second same-day buy seeing `acbBefore = 5000` and
`acbAfter = 10100`.  The code instead seeds a same-day create from the
state before any same-date row (`getPositionStateAtDate`) and triggers no
replay because no strictly later row exists, so after buy 100 at 50 and
buy 100 at 51 both on day 15 the second buy has before-state `(0, 0)`
and `acbAfter = 5100`, and the series violates chain continuity. -/
theorem c1_same_day_chain_broken :
    (createTransaction noReg c1Buy1 ⟨[], 0⟩).1 = none ∧
    (createTransaction noReg c1Buy2 (createTransaction noReg c1Buy1 ⟨[], 0⟩).2).1 = none ∧
    (getTxn c1Ledger 0).map (fun t => (t.sharesAfter, t.acbAfter)) = some (100, 5000) ∧
    (getTxn c1Ledger 1).map (fun t => (t.sharesBefore, t.acbBefore, t.acbAfter)) =
      some (0, 0, 5100) ∧
    chainContinuousB (sortAsc (seriesOf c1Ledger.txns 0 0)) = false := by
  decide

set_option maxRecDepth 8000 in
/-- Claim C2: the denied superficial loss is stated to be written into the
in-window repurchase's `acb_after`, making the second buy of the literal
scenario end at `acbAfter = 4800`.  The code never adjusts any
repurchase's ACB (its `calculateAdjustedAcb` helper is never invoked by
the orchestrator), and the sell — created before the repurchase existed —
is not even flagged: the repurchase ends at `acbAfter = 3800`. -/
theorem c2_denied_loss_not_written :
    (getTxn c2Ledger 1).map (fun t => (t.capitalGain, t.flags)) =
      some (some (-1000), []) ∧
    (getTxn c2Ledger 2).map (fun t => (t.acbAfter, t.flags)) = some (3800, []) := by
  decide

set_option maxRecDepth 8000 in
/-- Claim C3: replay is stated to call the Algebra with every stored input
including `rocPerShare`, so that re-running replay over an unchanged
series reproduces every stored value.  The code's
`recalculateTransactions` passes only type, quantity, price, fees, fxRate
and ratio (and the row does not store `rocPerShare` at all), so the RoC
falls back to `price = 0` on replay: the stored `acbAfter = 4800` of the
RoC row becomes `5000` after replaying the unchanged series. -/
theorem c3_replay_not_reproducible :
    (getTxn c3Ledger 1).map (fun t => t.acbAfter) = some 4800 ∧
    c3Replayed.1 = none ∧
    (getTxn c3Replayed.2 1).map (fun t => t.acbAfter) = some 5000 := by
  decide

set_option maxRecDepth 8000 in
/-- Claim C6: the detector is stated to deny exactly when the account is
non-registered, some in-window buy/DRIP other than the sell itself
exists, and shares are still held 30 days later.  The code additionally
excludes every acquisition dated the same day as the sell: at this input
all three stated conditions hold, yet the detector reports
`isSuperficial = false`. -/
theorem c6_detector_ignores_same_day_acquisition :
    claimDenialTest noReg [c6Buy] c6Sell = true ∧
    (checkForSuperficialLoss noReg [c6Buy] c6Sell (-1000)).isSuperficial = false := by
  decide

/-- Claim C4: for every sell with `q ≤ S_b` the Algebra returns
`shares_after = S_b − q`, `acb_after = A_b − (A_b/S_b)·q` and
`capital_gain = (p·q·r − f) − (A_b/S_b)·q`, shares rounded to 6 decimals
and money to 2; and in the literal scenario (buy 100 at 50 with a 10 fee,
then sell 100 at 60 with a 10 fee) the sell yields `capitalGain = 980`,
`acbAfter = 0`, `sharesAfter = 0`. -/
theorem c4_sell_formula :
    (∀ q p f r Sb Ab : ℚ, q ≤ Sb →
      (calcRes (calculate
        { transactionType := TxType.sell, quantity := q, pricePerShare := p
          fees := f, fxRate := r, currentShares := Sb, currentAcb := Ab })).map
        (fun res => (res.newShares, res.newAcb, res.capitalGain)) =
      some (roundToShares (Sb - q), roundToCurrency (Ab - Ab / Sb * q),
        some (roundToCurrency (p * q * r - f - Ab / Sb * q)))) ∧
    (calcRes (calculate
      { transactionType := TxType.buy, quantity := 100, pricePerShare := 50
        fees := 10, fxRate := 1, currentShares := 0, currentAcb := 0 })).map
      (fun res => (res.newShares, res.newAcb)) = some (100, 5010) ∧
    (calcRes (calculate
      { transactionType := TxType.sell, quantity := 100, pricePerShare := 60
        fees := 10, fxRate := 1, currentShares := 100, currentAcb := 5010 })).map
      (fun res => (res.newShares, res.newAcb, res.capitalGain)) =
      some (0, 0, some 980) := by
  refine ⟨?_, by decide, by decide⟩
  intro q p f r Sb Ab h
  have h' : ¬ q > Sb := not_lt.mpr h
  simp [calculate, calculateSell, calcRes, h', safeDivide_eq_div]

/-- Witness for C4: the universal part applied at the literal sell of the
scenario (100 shares, price 60, fee 10, fx 1, from state (100, 5010)). -/
theorem c4_sell_formula_witness :
    ((100 : ℚ) ≤ 100) ∧
    (calcRes (calculate
      { transactionType := TxType.sell, quantity := 100, pricePerShare := 60
        fees := 10, fxRate := 1, currentShares := 100, currentAcb := 5010 })).map
      (fun res => (res.newShares, res.newAcb, res.capitalGain)) =
      some (roundToShares (100 - 100), roundToCurrency (5010 - 5010 / 100 * 100),
        some (roundToCurrency (60 * 100 * 1 - 10 - 5010 / 100 * 100))) :=
  ⟨by norm_num, c4_sell_formula.1 100 60 10 1 100 5010 (by norm_num)⟩

/-- Claim C5: for every RoC event, when `rocPerShare·S_b·r` strictly
exceeds `A_b` the Algebra returns `acb_after = 0` and
`capital_gain = rocPerShare·S_b·r − A_b`, otherwise
`acb_after = A_b − rocPerShare·S_b·r` with no capital gain; shares are
unchanged.  In the literal scenario (buy 100 at 8, then RoC of 10 per
share) the result is `acbAfter = 0` and `capitalGain = 200`. -/
theorem c5_roc_clamp :
    (∀ q p f r Sb Ab rps : ℚ,
      (calcRes (calculate
        { transactionType := TxType.roc, quantity := q, pricePerShare := p
          fees := f, fxRate := r, currentShares := Sb, currentAcb := Ab
          rocPerShare := some rps })).map
        (fun res => (res.newShares, res.newAcb, res.capitalGain)) =
      some (Sb,
        if rps * Sb * r > Ab then 0 else roundToCurrency (Ab - rps * Sb * r),
        if rps * Sb * r > Ab then some (roundToCurrency (rps * Sb * r - Ab))
        else none)) ∧
    (calcRes (calculate
      { transactionType := TxType.roc, quantity := 100, pricePerShare := 0
        fees := 0, fxRate := 1, currentShares := 100, currentAcb := 800
        rocPerShare := some 10 })).map
      (fun res => (res.newShares, res.newAcb, res.capitalGain)) =
      some (100, 0, some 200) := by
  constructor
  · intro q p f r Sb Ab rps
    by_cases h : rps * Sb * r > Ab
    · have h0 : Ab - rps * Sb * r < 0 := by linarith
      simp [calculate, calculateRoC, calcRes, h, h0, roundToCurrency_zero, neg_sub]
    · have h0 : ¬ Ab - rps * Sb * r < 0 := by
        push_neg
        push_neg at h
        linarith
      simp [calculate, calculateRoC, calcRes, h, h0]
  · decide

/-- Claim C8 counterexample: a split with ratio −1 does not fail with
`InvalidRatio` — the Algebra succeeds and returns a negative share
count. -/
theorem c8_no_invalid_ratio_error :
    calcOk (calculate c8SplitNeg) = true ∧
    (calcRes (calculate c8SplitNeg)).map (fun r => r.newShares) = some (-100) := by
  decide

set_option maxRecDepth 8000 in
/-- Claim C9 counterexample: updating the only row (a buy of 100) into a
sell of 150 makes the re-create step fail after the delete step has
removed the original row; the update reports an error and the ledger is
left empty — the original transaction is not restored. -/
theorem c9_fault_loses_original_row :
    (getTxn c9Ledger 0).isSome = true ∧
    c9Updated.1.isSome = true ∧
    c9Updated.2.txns = [] := by
  decide

/-- Claim C7: the Algebra fails with `InsufficientShares` on a sell or
transfer-out exactly when `q > S_b` (and produces no new state on the
error), and consequently every sell or transfer-out row persisted by the
orchestrator satisfies `quantity ≤ sharesBefore` (I4): the create path
preserves sell feasibility of every ledger row. -/
theorem c7_insufficient_shares :
    (∀ inp : CalcInput,
      inp.transactionType = TxType.sell ∨ inp.transactionType = TxType.transfer_out →
      (calcRes (calculate inp) = none ↔ inp.quantity > inp.currentShares)) ∧
    (∀ (isReg : ℕ → Bool) (inp : CreateInput) (l : Ledger),
      (∀ t ∈ l.txns, sellFeasible t) →
      ∀ t ∈ ((createTransaction isReg inp l).2).txns, sellFeasible t) := by
  constructor
  · intro inp h
    by_cases hq : inp.quantity > inp.currentShares <;>
      rcases h with h | h <;>
        simp [calculate, h, calculateSell, calculateTransferOut, calcRes, hq]
  · intro isReg inp l h
    refine createTransaction_preserves isReg inp l sellFeasible ?_ ?_ h
    · intro view cur shares acb res hcalc _
      obtain ⟨_, hty, hq, hsb⟩ := applyRecalc_fields isReg view cur shares acb res
      intro hsell
      rw [hty] at hsell
      rw [hq, hsb]
      exact @calculate_ok_le (recalcCalcInput cur shares acb) hsell res hcalc
    · intro res hcalc
      obtain ⟨_, hty, hq, hsb⟩ := mkCreatedTxn_fields isReg inp l _ res
      intro hsell
      rw [hty] at hsell
      rw [hq, hsb]
      exact @calculate_ok_le (createCalcInput inp _) hsell res hcalc

set_option maxRecDepth 8000 in
/-- Witness for C7: the failure half at a concrete oversell (150 sold
against 100 held), and the preservation half at a concrete create on the
empty ledger. -/
theorem c7_insufficient_shares_witness :
    ((c7SellInput.transactionType = TxType.sell ∨
        c7SellInput.transactionType = TxType.transfer_out) ∧
      (calcRes (calculate c7SellInput) = none ↔
        c7SellInput.quantity > c7SellInput.currentShares)) ∧
    ((∀ t ∈ (⟨[], 0⟩ : Ledger).txns, sellFeasible t) ∧
      ∀ t ∈ ((createTransaction noReg c7CreateInput ⟨[], 0⟩).2).txns,
        sellFeasible t) :=
  ⟨⟨Or.inl rfl, c7_insufficient_shares.1 c7SellInput (Or.inl rfl)⟩,
   ⟨by simp, c7_insufficient_shares.2 noReg c7CreateInput ⟨[], 0⟩ (by simp)⟩⟩

/-- Claim C8, amended: the Algebra performs no ratio validation at all —
no event fails other than a sell or transfer-out (so no `InvalidRatio`
error exists), and a split, consolidation or merger with ratio ≤ 0
succeeds, producing `shares_after = S_b · ratio` (zero or negative). -/
theorem c8_amended_no_ratio_validation :
    (∀ inp : CalcInput, inp.transactionType ≠ TxType.sell →
      inp.transactionType ≠ TxType.transfer_out → calcOk (calculate inp) = true) ∧
    (∀ Sb Ab rp : ℚ, rp ≤ 0 →
      ∀ ty, ty = TxType.split ∨ ty = TxType.consolidation ∨ ty = TxType.merger →
      (calcRes (calculate
        { transactionType := ty, quantity := 0, pricePerShare := 0
          fees := 0, fxRate := 1, currentShares := Sb, currentAcb := Ab
          ratioParam := some rp })).map (fun res => res.newShares) =
        some (roundToShares (Sb * rp))) := by
  constructor
  · intro inp h1 h2
    cases hty : inp.transactionType <;>
      simp_all [calculate, calcOk, calculateBuy, calculateDividend, calculateDrip,
        calculateRoC, calculateSplit, calculateConsolidation, calculateMerger,
        calculateSpinoff, calculateTransferIn]
  · intro Sb Ab rp _ ty hty
    rcases hty with h | h | h <;> subst h <;>
      simp [calculate, calculateSplit, calculateConsolidation, calculateMerger,
        calcRes]

set_option maxRecDepth 8000 in
/-- Witness for C8 (amended): the no-failure half at the concrete
negative-ratio split, and the formula half at ratio −1 on 100 shares. -/
theorem c8_amended_no_ratio_validation_witness :
    (c8SplitNeg.transactionType ≠ TxType.sell ∧
      c8SplitNeg.transactionType ≠ TxType.transfer_out ∧
      calcOk (calculate c8SplitNeg) = true) ∧
    ((-1 : ℚ) ≤ 0 ∧
      (calcRes (calculate
        { transactionType := TxType.split, quantity := 0, pricePerShare := 0
          fees := 0, fxRate := 1, currentShares := 100, currentAcb := 5000
          ratioParam := some (-1) })).map (fun res => res.newShares) =
        some (roundToShares (100 * -1))) :=
  ⟨⟨by decide, by decide,
    c8_amended_no_ratio_validation.1 c8SplitNeg (by decide) (by decide)⟩,
   ⟨by norm_num,
    c8_amended_no_ratio_validation.2 100 5000 (-1) (by norm_num) TxType.split
      (Or.inl rfl)⟩⟩

/-- Claim C9, amended: `update(id, patch)` is delete-then-create with the
merged fields (date, type, securityId, accountId, quantity, price, fees,
ratio, fxRate — the corporate-action extras are dropped), but the two
steps are not executed in one store transaction: whether the re-create
succeeds or faults, the original row is never restored — after any
update, no row with the original id remains in the ledger. -/
theorem c9_update_never_restores :
    ∀ (isReg : ℕ → Bool) (l : Ledger) (i : ℕ) (patch : UpdatePatch),
      (∀ t ∈ l.txns, t.id < l.nextId) →
      ∀ t ∈ ((updateTransaction isReg l i patch).2).txns, t.id ≠ i := by
  intro isReg l i patch hwf t ht
  unfold updateTransaction at ht
  cases hfind : getTxn l i with
  | none =>
      rw [hfind] at ht
      exact getTxn_none_notMem hfind t ht
  | some ex =>
      rw [hfind] at ht
      dsimp only at ht
      obtain ⟨hmem, hid⟩ := getTxn_some_mem hfind
      have hlt : i < l.nextId := hid ▸ hwf ex hmem
      have hupd : ∀ (view : List Txn) (cur : Txn) (shares acb : ℚ)
          (res : CalcResult),
          calculate (recalcCalcInput cur shares acb) = Except.ok res →
          cur.id ≠ i → (applyRecalc isReg view cur shares acb res).id ≠ i := by
        intro view cur shares acb res _ hcur
        rw [(applyRecalc_fields isReg view cur shares acb res).1]
        exact hcur
      have hdel : ∀ u ∈ ((deleteTransaction isReg l i).2).txns, u.id ≠ i := by
        intro u hu
        unfold deleteTransaction at hu
        rw [hfind] at hu
        refine recalculateTransactions_preserves isReg _ _ _ _
          (fun v => v.id ≠ i) hupd ?_ u hu
        intro v hv
        have := (List.mem_filter.mp hv).2
        simpa using this
      have hnid : ((deleteTransaction isReg l i).2).nextId = l.nextId := by
        unfold deleteTransaction
        rw [hfind]
        rfl
      cases hd1 : (deleteTransaction isReg l i).1 with
      | some e =>
          rw [hd1] at ht
          exact hdel t ht
      | none =>
          rw [hd1] at ht
          refine createTransaction_preserves isReg _ _ (fun v => v.id ≠ i)
            hupd ?_ hdel t ht
          intro res _
          rw [(mkCreatedTxn_fields isReg _ _ _ res).1, hnid]
          omega

set_option maxRecDepth 8000 in
/-- Witness for C9 (amended): the well-formedness hypothesis and the
conclusion at the concrete failing update of the scenario ledger. -/
theorem c9_update_never_restores_witness :
    (∀ t ∈ c9Ledger.txns, t.id < c9Ledger.nextId) ∧
    ∀ t ∈ ((updateTransaction noReg c9Ledger 0 c9Patch).2).txns, t.id ≠ 0 :=
  ⟨by decide, c9_update_never_restores noReg c9Ledger 0 c9Patch (by decide)⟩

/-- Claim C10, amended: the export is one unquoted header line naming the
seventeen columns — with `Fees` between `Currency` and `FX Rate` —
followed by one line per row whose seventeen fields (in that order, flags
joined by a semicolon and space, missing gain and notes empty) are each
wrapped in double quotes, all lines newline-joined. -/
theorem c10_amended_csv_structure :
    ∀ rows : List CsvRow, exportTransactionsCSV rows = specCsvExport rows := by
  intro rows
  rfl

/-- Claim C10 counterexample: the export's header line contains a `Fees`
column between `Currency` and `FX Rate` and its fields are not quoted, so
it differs from the header the claim prescribes. -/
theorem c10_header_has_fees_column :
    exportTransactionsCSV [] =
      "Date,Settlement Date,Type,Security,Account,Quantity,Price,Currency,Fees,FX Rate,ACB Before,ACB After,Shares Before,Shares After,Capital Gain/Loss,Flags,Notes" ∧
    exportTransactionsCSV [] ≠ claimCsvHeaderLine := by
  exact ⟨by decide, by decide⟩

end ACB
